import Mathlib

/-!
Shallow embedding of the movie-recommendation core of `src/app.py`
(functions `load_and_process_movies` and `recommend_movies_for_user`),
together with models of the two library calls the code relies on:
`MultiLabelBinarizer` (scikit-learn) and `NearestNeighbors.kneighbors`
(scikit-learn, brute-force cosine metric).

Numeric conventions: Python floats are modelled as exact rationals `ℚ`.
Cosine similarities of binary genre vectors are square roots of rationals,
so score values are represented exactly by the type `RadQ` below, denoting
`num * √rad`; all comparisons the code performs on scores are captured by
the decidable order `RadQ.le`.  Comma-joined strings (genre lists, favorite
ids) are taken as pre-parsed sequences at the model boundary, as the spec
declares in its external-interfaces section; the raw `genres` display string
is kept alongside the parsed `genres_list`, mirroring the two DataFrame
columns.
-/

set_option maxRecDepth 1000000

/-- Exact representation of the number `num * √rad` (with `rad ≥ 0` in all
values produced by the pipeline).  A tailored total score is
`similarity * rating_score * runtime_score` with `similarity = √simSq`, hence
`(rating_score * runtime_score) * √simSq`; a diversified total score is the
rational `rating_score * runtime_score = (rating_score * runtime_score) * √1`. -/
structure RadQ where
  num : ℚ
  rad : ℚ
deriving Repr, DecidableEq

/-- Decides whether the denoted value `num * √rad` is ≤ 0 (values with
`rad ≤ 0` denote 0 under the `rad ≥ 0` convention, since `rad` is then 0). -/
def RadQ.nonposB (x : RadQ) : Bool := decide (x.num ≤ 0 ∨ x.rad ≤ 0)

/-- Decidable order on `RadQ`, agreeing with the order of the denoted reals
`num * √rad` whenever both radicands are nonnegative: signs are compared
first, and same-sign values are compared by squaring, which is monotone on
nonnegative reals. -/
def RadQ.le (x y : RadQ) : Bool :=
  if x.nonposB then
    if y.nonposB then decide (y.num * y.num * y.rad ≤ x.num * x.num * x.rad)
    else true
  else
    if y.nonposB then false
    else decide (x.num * x.num * x.rad ≤ y.num * y.num * y.rad)

/-- Denotation of a `RadQ` score as the real number `num * Real.sqrt rad`.
This is spec-side semantics only — the pipeline never computes with it; it
exists to state and prove (`RadQ.le_iff_val`) that the executable order
`RadQ.le` decides the order of the denoted real score values. -/
noncomputable def RadQ.val (x : RadQ) : ℝ := (x.num : ℝ) * Real.sqrt (x.rad : ℝ)

/-- Insert an element into a list so that it lands before the first element
`b` with `cmp a b = true`; auxiliary step of `sortBy`. -/
def insertBy (cmp : α → α → Bool) (a : α) : List α → List α
  | [] => [a]
  | b :: bs => if cmp a b then a :: b :: bs else b :: insertBy cmp a bs

/-- Structural insertion sort by a boolean comparator; models the sorting
steps of the pipeline (`DataFrame.sort_values` and the ordering of
`kneighbors` output).  `cmp a b = true` means `a` may come before `b`. -/
def sortBy (cmp : α → α → Bool) : List α → List α
  | [] => []
  | a :: as => insertBy cmp a (sortBy cmp as)

/-- Failure modes actually raised by the code: `indexError` is the pandas
`IndexError` raised by `.iloc[0]` on an empty selection (unknown user id,
line 117 of `src/app.py`), `valueError` is the scikit-learn `ValueError`
raised by `kneighbors` when `n_neighbors` exceeds the number of fitted
samples (line 126 of `src/app.py`). -/
inductive PyErr where
  | indexError
  | valueError
deriving Repr, DecidableEq

/-- One row of the processed `movies` DataFrame produced by
`load_and_process_movies`: `runtimeMinutes` is numeric (median-filled at
load time), `genres_list` is the comma-split of the `genres` string
(line 69 of `src/app.py`), and `averageRating` may be missing (`NaN` from
the left merge with ratings), modelled as `Option ℚ`. -/
structure Movie where
  tconst : String
  primaryTitle : String
  genres : String
  genres_list : List String
  runtimeMinutes : ℚ
  averageRating : Option ℚ
deriving Repr, DecidableEq

/-- One row of the `custom_users.csv` DataFrame.  The comma-joined
`preferred_genres` and `favorite_movies` strings are taken pre-parsed
(stripped and split, lines 118-120 of `src/app.py`). -/
structure UserRow where
  user_id : String
  preferred_genres : List String
  average_watch_time : ℚ
  favorite_movies : List String
deriving Repr, DecidableEq

/-- Lexicographic strict order on character lists by code point; basis of
the deterministic vocabulary order used by `MultiLabelBinarizer`. -/
def charListLt : List Char → List Char → Bool
  | [], [] => false
  | [], _ :: _ => true
  | _ :: _, [] => false
  | a :: as, b :: bs =>
    if a.toNat < b.toNat then true
    else if b.toNat < a.toNat then false
    else charListLt as bs

/-- Lexicographic order on strings (reflexive closure of `charListLt`),
used to sort the genre vocabulary the way numpy sorts string arrays. -/
def strLeB (a b : String) : Bool := a == b || charListLt a.data b.data

/-- Remove duplicate labels keeping first occurrences; auxiliary to
`mlb_classes` (set formation inside `MultiLabelBinarizer.fit`). -/
def dedupLabelsGo (seen : List String) : List String → List String
  | [] => []
  | g :: gs => if g ∈ seen then dedupLabelsGo seen gs else g :: dedupLabelsGo (g :: seen) gs

/-- Model of `MultiLabelBinarizer.fit` on the catalog's genre lists: the
vocabulary is the sorted set of all genre labels seen in the catalog. -/
def mlb_classes (movies : List Movie) : List String :=
  sortBy strLeB (dedupLabelsGo [] (movies.map Movie.genres_list).flatten)

/-- Model of `MultiLabelBinarizer.transform` on one label list: a binary
vector over the fitted vocabulary with 1 at each class contained in the
input; labels outside the vocabulary are silently ignored. -/
def mlb_transform (classes : List String) (labels : List String) : List ℚ :=
  classes.map (fun c => if c ∈ labels then 1 else 0)

/-- Dot product of two feature vectors. -/
def dotQ (u v : List ℚ) : ℚ := (List.zipWith (fun a b => a * b) u v).sum

/-- Squared euclidean norm of a feature vector. -/
def sqNormQ (v : List ℚ) : ℚ := dotQ v v

/-- Squared cosine similarity of two vectors, a rational number.  The
cosine similarity itself is `√(cosSimSq q x)` (the vectors the program
builds are 0/1-valued, so all dot products are nonnegative); scikit-learn
normalizes zero vectors to zero, giving similarity 0 (distance 1) in the
degenerate case, modelled by the zero-norm branch. -/
def cosSimSq (q x : List ℚ) : ℚ :=
  if sqNormQ q = 0 ∨ sqNormQ x = 0 then 0
  else dotQ q x * dotQ q x / (sqNormQ q * sqNormQ x)

/-- Model of `NearestNeighbors(metric=cosine, algorithm=brute).kneighbors`:
raises `ValueError` when `n_neighbors` exceeds the number of fitted samples,
otherwise returns exactly `n_neighbors` pairs of (sample index, squared
cosine similarity to the query), ordered by ascending cosine distance.
Distance `1 - √simSq` is strictly decreasing in `simSq`, so ascending
distance is exactly descending `simSq`; returning the squared similarity
keeps all arithmetic rational while denoting the same ordering and, through
`similarity = 1 - distance = √simSq`, the same similarity values. -/
def kneighbors (X : List (List ℚ)) (q : List ℚ) (n_neighbors : ℕ) :
    Except PyErr (List (ℕ × ℚ)) :=
  if X.length < n_neighbors then Except.error PyErr.valueError
  else
    Except.ok ((sortBy (fun a b => decide (b.2 ≤ a.2)) (X.map (cosSimSq q)).enum).take n_neighbors)

/-- Runtime closeness score, line 139/157 of `src/app.py`:
`1 / (1 + abs(runtimeMinutes - watch_time))`. -/
def runtime_score (runtimeMinutes watch_time : ℚ) : ℚ :=
  1 / (1 + |runtimeMinutes - watch_time|)

/-- One scored candidate row as built by `recommend_movies_for_user`:
`averageRating` is the value after `pd.to_numeric(...).fillna(0)`, `simSq`
is the squared similarity for tailored rows (`none` for diversified rows,
whose DataFrame has no similarity column), and `total_score` denotes
`num * √rad` as explained at `RadQ`. -/
structure ScoredRow where
  movie : Movie
  averageRating : ℚ
  simSq : Option ℚ
  runtime_score : ℚ
  rating_score : ℚ
  total_score : RadQ
deriving Repr, DecidableEq

/-- Scoring of one tailored candidate (lines 138-141 of `src/app.py`):
`total_score = similarity * rating_score * runtime_score` where
`similarity = 1 - distance = √simSq`, hence the representation
`(rating_score * runtime_score) * √simSq`. -/
def score_tailored (m : Movie) (simSq : ℚ) (watch_time : ℚ) : ScoredRow :=
  let rating := m.averageRating.getD 0
  let rts := runtime_score m.runtimeMinutes watch_time
  let rgs := rating / 10
  { movie := m, averageRating := rating, simSq := some simSq,
    runtime_score := rts, rating_score := rgs,
    total_score := { num := rgs * rts, rad := simSq } }

/-- Scoring of one diversified candidate (lines 156-160 of `src/app.py`):
similarity is not used, `total_score = rating_score * runtime_score`,
represented as `(rating_score * runtime_score) * √1`. -/
def score_diverse (m : Movie) (watch_time : ℚ) : ScoredRow :=
  let rating := m.averageRating.getD 0
  let rts := runtime_score m.runtimeMinutes watch_time
  let rgs := rating / 10
  { movie := m, averageRating := rating, simSq := none,
    runtime_score := rts, rating_score := rgs,
    total_score := { num := rgs * rts, rad := 1 } }

/-- Comparator realizing `sort_values(total_score, ascending=False)`. -/
def byTotalScoreDesc (a b : ScoredRow) : Bool := RadQ.le b.total_score a.total_score

/-- Tailored pool (lines 129-144 of `src/app.py`): pair each returned
neighbor index with its similarity positionally, drop the user's favorite
movies, score, keep rows with `averageRating ≥ min_rating`, and sort by
`total_score` descending. -/
def tailored_pool (movies : List Movie) (nbrs : List (ℕ × ℚ))
    (favorite_movies : List String) (watch_time min_rating : ℚ) : List ScoredRow :=
  let selected := nbrs.filterMap (fun p => (movies.get? p.1).map (fun m => (m, p.2)))
  let no_favs := selected.filter (fun p => decide (p.1.tconst ∉ favorite_movies))
  let scored := no_favs.map (fun p => score_tailored p.1 p.2 watch_time)
  sortBy byTotalScoreDesc (scored.filter (fun r => decide (min_rating ≤ r.averageRating)))

/-- Diversified pool (lines 153-161 of `src/app.py`): keep catalog movies
whose genre list has no overlap with the preferred genres, drop favorites,
score without similarity, keep rows with `averageRating ≥ min_rating`, and
sort by `total_score` descending. -/
def diverse_pool (movies : List Movie) (preferred_genres favorite_movies : List String)
    (watch_time min_rating : ℚ) : List ScoredRow :=
  let no_pref := movies.filter (fun m => m.genres_list.all (fun g => decide (g ∉ preferred_genres)))
  let no_favs := no_pref.filter (fun m => decide (m.tconst ∉ favorite_movies))
  let scored := no_favs.map (fun m => score_diverse m watch_time)
  sortBy byTotalScoreDesc (scored.filter (fun r => decide (min_rating ≤ r.averageRating)))

/-- Model of `DataFrame.drop_duplicates(subset=tconst)` (keep=first, the
pandas default): keeps the first row carrying each `tconst`. -/
def dedupByTconstGo (seen : List String) : List ScoredRow → List ScoredRow
  | [] => []
  | r :: rs =>
    if r.movie.tconst ∈ seen then dedupByTconstGo seen rs
    else r :: dedupByTconstGo (r.movie.tconst :: seen) rs

/-- Deduplication by item id keeping the first occurrence, line 165 of
`src/app.py`. -/
def drop_duplicates_tconst (xs : List ScoredRow) : List ScoredRow := dedupByTconstGo [] xs

/-- Lines 165-166 of `src/app.py`: concatenate tailored-first, deduplicate
by `tconst` keeping the first occurrence, and sort the merged result by
`total_score` descending. -/
def merge_recs (tailored_recs diverse_recs : List ScoredRow) : List ScoredRow :=
  sortBy byTotalScoreDesc (drop_duplicates_tconst (tailored_recs ++ diverse_recs))

/-- Python `int()` applied to a float: truncation toward zero. -/
def py_int (q : ℚ) : ℤ := if 0 ≤ q then ⌊q⌋ else ⌈q⌉

/-- Line 147 of `src/app.py`: `num_diverse = int(n_recommendations * diversified_ratio)`. -/
def num_diverse (n_recommendations : ℤ) (diversified_ratio : ℚ) : ℤ :=
  py_int ((n_recommendations : ℚ) * diversified_ratio)

/-- Line 148 of `src/app.py`: `num_tailored = n_recommendations - num_diverse`. -/
def num_tailored (n_recommendations : ℤ) (diversified_ratio : ℚ) : ℤ :=
  n_recommendations - num_diverse n_recommendations diversified_ratio

/-- Model of `DataFrame.head(n)` for a possibly negative Python int `n`:
nonnegative `n` takes the first `n` rows, negative `n` drops the last
`abs n` rows (pandas semantics). -/
def df_head (n : ℤ) (xs : List α) : List α :=
  if 0 ≤ n then xs.take n.toNat else xs.take (xs.length - (-n).toNat)

/-- One row of the DataFrame returned at line 168 of `src/app.py`: exactly
the projected columns `tconst, primaryTitle, genres, runtimeMinutes,
averageRating, total_score` — the requesting user id is not among them. -/
structure OutRow where
  tconst : String
  primaryTitle : String
  genres : String
  runtimeMinutes : ℚ
  averageRating : ℚ
  total_score : RadQ
deriving Repr, DecidableEq

/-- Column projection of line 168 of `src/app.py` applied to one row. -/
def toOutRow (r : ScoredRow) : OutRow :=
  { tconst := r.movie.tconst, primaryTitle := r.movie.primaryTitle,
    genres := r.movie.genres, runtimeMinutes := r.movie.runtimeMinutes,
    averageRating := r.averageRating, total_score := r.total_score }

/-- The literal column list selected at line 168 of `src/app.py`. -/
def output_columns : List String :=
  ["tconst", "primaryTitle", "genres", "runtimeMinutes", "averageRating", "total_score"]

/-- Shallow embedding of `recommend_movies_for_user` (lines 96-168 of
`src/app.py`).  The user lookup `df_users[df_users.user_id == user_id].iloc[0]`
raises `IndexError` on an empty selection; the fixed over-fetch constant 200
is passed to `kneighbors` exactly as at line 126. -/
def recommend_movies_for_user (user_id : String) (df_users : List UserRow)
    (movies : List Movie) (n_recommendations : ℤ) (diversified_ratio : ℚ)
    (min_rating : ℚ) : Except PyErr (List OutRow) :=
  match df_users.filter (fun u => u.user_id == user_id) with
  | [] => Except.error PyErr.indexError
  | user_row :: _ =>
    let preferred_genres := user_row.preferred_genres
    let user_watch_time := user_row.average_watch_time
    let favorite_movies := user_row.favorite_movies
    let classes := mlb_classes movies
    let user_vector := mlb_transform classes preferred_genres
    let genre_features := movies.map (fun m => mlb_transform classes m.genres_list)
    match kneighbors genre_features user_vector 200 with
    | Except.error e => Except.error e
    | Except.ok nbrs =>
      let tailored_df := tailored_pool movies nbrs favorite_movies user_watch_time min_rating
      let nd := num_diverse n_recommendations diversified_ratio
      let nt := num_tailored n_recommendations diversified_ratio
      let tailored_recs := df_head nt tailored_df
      let diverse_df := diverse_pool movies preferred_genres favorite_movies user_watch_time min_rating
      let diverse_recs := df_head nd diverse_df
      Except.ok ((merge_recs tailored_recs diverse_recs).map toOutRow)

/-- Rounding to two decimal places, as the spec's scoring formula requires. -/
def round2 (q : ℚ) : ℚ := (round (q * 100) : ℤ) / 100

/-- Modelled from the spec (scorer contract): the additive weighted formula
`total_score = 0.7 * similarity + 0.3 * ((rating_score + runtime_score)/2)`,
rounded to 2 decimal places.  This definition follows the spec's words and
exists only to be compared with the code's multiplicative `total_score`. -/
def spec_total_score (similarity ratingScore runtimeScore : ℚ) : ℚ :=
  round2 (7/10 * similarity + 3/10 * ((ratingScore + runtimeScore) / 2))

/-- Catalog movie used in concrete runs: genre `B`, rating 8, runtime 100. -/
def demoMovieB (i : ℕ) : Movie :=
  { tconst := "t" ++ toString i, primaryTitle := "B Movie " ++ toString i,
    genres := "B", genres_list := ["B"], runtimeMinutes := 100, averageRating := some 8 }

/-- Catalog movie used in concrete runs: genre `A`, rating 8, runtime 100. -/
def demoMovieA : Movie :=
  { tconst := "tA", primaryTitle := "A Movie", genres := "A", genres_list := ["A"],
    runtimeMinutes := 100, averageRating := some 8 }

/-- A 200-item catalog (199 `B` movies and one `A` movie), large enough for
the code's fixed over-fetch of 200 to succeed. -/
def demoMovies : List Movie := (List.range 199).map demoMovieB ++ [demoMovieA]

/-- A user who prefers genre `A`, watches 100-minute movies and has no
favorites. -/
def demoUser : UserRow :=
  { user_id := "user_demo", preferred_genres := ["A"], average_watch_time := 100,
    favorite_movies := [] }

/-- Singleton user store for concrete runs. -/
def demoUsers : List UserRow := [demoUser]

/-- The rows returned by the pipeline on the demo catalog and demo user with
`n_recommendations = 10`, `diversified_ratio = 1/2`, `min_rating = 7`:
`num_tailored = num_diverse = 5`; the tailored head is `tA, t0, t1, t2, t3`
(only `tA` matches the preferred genre, the `B` rows have similarity 0 and
hence total score 0), the diversified head is `t0 ... t4` (each with total
score `4/5`); deduplication keeps the tailored occurrences of `t0 ... t3`,
and the final descending sort puts `tA` and the diversified `t4` first. -/
def demoRows : List OutRow :=
  [ { tconst := "tA", primaryTitle := "A Movie", genres := "A",
      runtimeMinutes := 100, averageRating := 8,
      total_score := { num := 4/5, rad := 1 } },
    { tconst := "t4", primaryTitle := "B Movie 4", genres := "B",
      runtimeMinutes := 100, averageRating := 8,
      total_score := { num := 4/5, rad := 1 } },
    { tconst := "t0", primaryTitle := "B Movie 0", genres := "B",
      runtimeMinutes := 100, averageRating := 8,
      total_score := { num := 4/5, rad := 0 } },
    { tconst := "t1", primaryTitle := "B Movie 1", genres := "B",
      runtimeMinutes := 100, averageRating := 8,
      total_score := { num := 4/5, rad := 0 } },
    { tconst := "t2", primaryTitle := "B Movie 2", genres := "B",
      runtimeMinutes := 100, averageRating := 8,
      total_score := { num := 4/5, rad := 0 } },
    { tconst := "t3", primaryTitle := "B Movie 3", genres := "B",
      runtimeMinutes := 100, averageRating := 8,
      total_score := { num := 4/5, rad := 0 } } ]

theorem perm_insertBy (cmp : α → α → Bool) (a : α) (l : List α) :
    List.Perm (insertBy cmp a l) (a :: l) := by
  induction l with
  | nil => simp [insertBy]
  | cons b bs ih =>
    simp only [insertBy]
    split
    · exact List.Perm.refl _
    · exact (ih.cons b).trans (List.Perm.swap a b bs)

theorem sortBy_perm (cmp : α → α → Bool) (l : List α) :
    List.Perm (sortBy cmp l) l := by
  induction l with
  | nil => simp [sortBy]
  | cons a as ih =>
    exact (perm_insertBy cmp a (sortBy cmp as)).trans (ih.cons a)

theorem mem_sortBy {cmp : α → α → Bool} {x : α} {l : List α} :
    x ∈ sortBy cmp l ↔ x ∈ l := (sortBy_perm cmp l).mem_iff

theorem length_sortBy (cmp : α → α → Bool) (l : List α) :
    (sortBy cmp l).length = l.length := (sortBy_perm cmp l).length_eq

theorem mem_insertBy {cmp : α → α → Bool} {x a : α} {l : List α} :
    x ∈ insertBy cmp a l ↔ x = a ∨ x ∈ l := by
  rw [(perm_insertBy cmp a l).mem_iff]; simp

theorem pairwise_insertBy {cmp : α → α → Bool}
    (htot : ∀ u v, cmp u v || cmp v u)
    (htrans : ∀ u v w, cmp u v = true → cmp v w = true → cmp u w = true)
    {a : α} {l : List α} (hl : l.Pairwise (fun u v => cmp u v = true)) :
    (insertBy cmp a l).Pairwise (fun u v => cmp u v = true) := by
  induction l with
  | nil => simp [insertBy]
  | cons b bs ih =>
    simp only [insertBy]
    rcases List.pairwise_cons.1 hl with ⟨hb, hbs⟩
    split
    · rename_i hab
      refine List.pairwise_cons.2 ⟨?_, hl⟩
      intro x hx
      rcases List.mem_cons.1 hx with rfl | hx
      · exact hab
      · exact htrans a b x hab (hb x hx)
    · rename_i hab
      refine List.pairwise_cons.2 ⟨?_, ih hbs⟩
      intro x hx
      rcases mem_insertBy.1 hx with hxa | hx
      · cases h : cmp a b with
        | true => exact absurd h hab
        | false =>
          rw [hxa]
          have := htot a b
          simpa [h] using this
      · exact hb x hx

theorem pairwise_sortBy {cmp : α → α → Bool}
    (htot : ∀ u v, cmp u v || cmp v u)
    (htrans : ∀ u v w, cmp u v = true → cmp v w = true → cmp u w = true)
    (l : List α) :
    (sortBy cmp l).Pairwise (fun u v => cmp u v = true) := by
  induction l with
  | nil => simp [sortBy]
  | cons a as ih =>
    exact pairwise_insertBy htot htrans ih

theorem RadQ.le_total_bool (x y : RadQ) : (RadQ.le x y || RadQ.le y x) = true := by
  unfold RadQ.le
  by_cases hx : x.nonposB <;> by_cases hy : y.nonposB <;>
    simp [hx, hy, le_total]

theorem RadQ.le_trans_bool (x y z : RadQ) :
    RadQ.le x y = true → RadQ.le y z = true → RadQ.le x z = true := by
  unfold RadQ.le
  by_cases hx : x.nonposB <;> by_cases hy : y.nonposB <;>
    by_cases hz : z.nonposB <;>
    simp [hx, hy, hz] <;> intro h1 h2 <;>
    first
      | exact le_trans h2 h1
      | exact le_trans h1 h2

theorem sqrt_cast_sq_mul {a r : ℚ} (_hr : 0 ≤ r) (ha : 0 ≤ a) :
    (a : ℝ) * Real.sqrt (r : ℝ) = Real.sqrt ((a * a * r : ℚ) : ℝ) := by
  push_cast
  rw [show (a : ℝ) * (a : ℝ) * (r : ℝ) = ((a : ℝ)) ^ 2 * (r : ℝ) by ring]
  rw [Real.sqrt_mul (sq_nonneg _) _, Real.sqrt_sq (by exact_mod_cast ha)]

theorem val_nonpos_eq {a r : ℚ} (hr : 0 ≤ r) (h : a ≤ 0 ∨ r ≤ 0) :
    (a : ℝ) * Real.sqrt (r : ℝ) = -Real.sqrt ((a * a * r : ℚ) : ℝ) := by
  rcases h with ha | hr0
  · have h2 : ((-a : ℚ) : ℝ) * Real.sqrt (r : ℝ) =
        Real.sqrt (((-a) * (-a) * r : ℚ) : ℝ) :=
      sqrt_cast_sq_mul hr (by linarith)
    have h3 : ((-a) * (-a) * r : ℚ) = a * a * r := by ring
    rw [h3] at h2
    push_cast at h2 ⊢
    linarith [h2]
  · have hr1 : r = 0 := le_antisymm hr0 hr
    subst hr1
    push_cast
    simp

theorem radq_val_pos {a r : ℚ} (ha : 0 < a) (hr2 : 0 < r) :
    0 < (a : ℝ) * Real.sqrt (r : ℝ) :=
  mul_pos (by exact_mod_cast ha) (Real.sqrt_pos.2 (by exact_mod_cast hr2))

/-- Soundness of the executable comparator: on values with nonnegative
radicands (the only ones the pipeline produces), `RadQ.le` decides the
order of the denoted real numbers `num * Real.sqrt rad`. -/
theorem RadQ.le_iff_val {x y : RadQ} (hx : 0 ≤ x.rad) (hy : 0 ≤ y.rad) :
    RadQ.le x y = true ↔ RadQ.val x ≤ RadQ.val y := by
  have hxn : x.nonposB = true ↔ (x.num ≤ 0 ∨ x.rad ≤ 0) := by
    unfold RadQ.nonposB
    exact decide_eq_true_iff
  have hyn : y.nonposB = true ↔ (y.num ≤ 0 ∨ y.rad ≤ 0) := by
    unfold RadQ.nonposB
    exact decide_eq_true_iff
  by_cases hxc : x.num ≤ 0 ∨ x.rad ≤ 0 <;> by_cases hyc : y.num ≤ 0 ∨ y.rad ≤ 0
  · have hxb : x.nonposB = true := hxn.2 hxc
    have hyb : y.nonposB = true := hyn.2 hyc
    rw [RadQ.le, hxb, hyb]
    simp only [if_true, decide_eq_true_iff]
    unfold RadQ.val
    rw [val_nonpos_eq hx hxc, val_nonpos_eq hy hyc, neg_le_neg_iff,
      Real.sqrt_le_sqrt_iff (by exact_mod_cast mul_nonneg (mul_self_nonneg x.num) hx)]
    constructor <;> intro h <;> exact_mod_cast h
  · have hxb : x.nonposB = true := hxn.2 hxc
    have hyb : y.nonposB = false := by
      cases hb : y.nonposB with
      | false => rfl
      | true => exact absurd (hyn.1 hb) hyc
    rw [RadQ.le, hxb, hyb]
    simp only [if_true, Bool.false_eq_true, if_false]
    constructor
    · intro _
      have hb2 : 0 < y.num := lt_of_not_le (not_or.1 hyc).1
      have hs2 : 0 < y.rad := lt_of_not_le (not_or.1 hyc).2
      unfold RadQ.val
      have h1 : (x.num : ℝ) * Real.sqrt (x.rad : ℝ) ≤ 0 := by
        rw [val_nonpos_eq hx hxc]
        exact neg_nonpos.2 (Real.sqrt_nonneg _)
      exact le_trans h1 (le_of_lt (radq_val_pos hb2 hs2))
    · intro _
      trivial
  · have hxb : x.nonposB = false := by
      cases hb : x.nonposB with
      | false => rfl
      | true => exact absurd (hxn.1 hb) hxc
    have hyb : y.nonposB = true := hyn.2 hyc
    rw [RadQ.le, hxb, hyb]
    simp only [Bool.false_eq_true, if_false, if_true]
    constructor
    · intro hcontra
      cases hcontra
    · intro hval
      exfalso
      have ha2 : 0 < x.num := lt_of_not_le (not_or.1 hxc).1
      have hr2 : 0 < x.rad := lt_of_not_le (not_or.1 hxc).2
      have h1 : RadQ.val y ≤ 0 := by
        unfold RadQ.val
        rw [val_nonpos_eq hy hyc]
        exact neg_nonpos.2 (Real.sqrt_nonneg _)
      have h2 : 0 < RadQ.val x := radq_val_pos ha2 hr2
      linarith
  · have hxb : x.nonposB = false := by
      cases hb : x.nonposB with
      | false => rfl
      | true => exact absurd (hxn.1 hb) hxc
    have hyb : y.nonposB = false := by
      cases hb : y.nonposB with
      | false => rfl
      | true => exact absurd (hyn.1 hb) hyc
    rw [RadQ.le, hxb, hyb]
    simp only [Bool.false_eq_true, if_false, decide_eq_true_iff]
    have ha2 : (0:ℚ) ≤ x.num := le_of_lt (lt_of_not_le (not_or.1 hxc).1)
    have hb2 : (0:ℚ) ≤ y.num := le_of_lt (lt_of_not_le (not_or.1 hyc).1)
    unfold RadQ.val
    rw [sqrt_cast_sq_mul hx ha2, sqrt_cast_sq_mul hy hb2,
      Real.sqrt_le_sqrt_iff (by exact_mod_cast mul_nonneg (mul_self_nonneg y.num) hy)]
    constructor <;> intro h <;> exact_mod_cast h

theorem zipWith_self_sum_nonneg (v : List ℚ) :
    0 ≤ (List.zipWith (fun a b => a * b) v v).sum := by
  induction v with
  | nil => simp
  | cons a as ih =>
    rw [List.zipWith_cons_cons, List.sum_cons]
    exact add_nonneg (mul_self_nonneg a) ih

theorem sqNormQ_nonneg (v : List ℚ) : 0 ≤ sqNormQ v := zipWith_self_sum_nonneg v

theorem cosSimSq_nonneg (q x : List ℚ) : 0 ≤ cosSimSq q x := by
  unfold cosSimSq
  split
  · exact le_refl 0
  · exact div_nonneg (mul_self_nonneg _)
      (mul_nonneg (sqNormQ_nonneg q) (sqNormQ_nonneg x))

theorem kneighbors_snd_nonneg {X : List (List ℚ)} {q : List ℚ} {k : ℕ}
    {rs : List (ℕ × ℚ)} (h : kneighbors X q k = Except.ok rs) :
    ∀ p ∈ rs, 0 ≤ p.2 := by
  unfold kneighbors at h
  split at h
  · cases h
  · cases h
    intro p hp
    obtain ⟨i, s⟩ := p
    have hp2 := List.take_subset _ _ hp
    rw [mem_sortBy] at hp2
    rcases List.mem_enum hp2 with ⟨hi, hs⟩
    rw [List.getElem_map] at hs
    rw [hs]
    exact cosSimSq_nonneg _ _

theorem tailored_pool_rad_nonneg {movies : List Movie} {nbrs : List (ℕ × ℚ)}
    {favs : List String} {wt mr : ℚ} (hn : ∀ p ∈ nbrs, 0 ≤ p.2)
    {r : ScoredRow} (hr : r ∈ tailored_pool movies nbrs favs wt mr) :
    0 ≤ r.total_score.rad := by
  unfold tailored_pool at hr
  rw [mem_sortBy] at hr
  rcases List.mem_filter.1 hr with ⟨hmem, _⟩
  rcases List.mem_map.1 hmem with ⟨p, hp, rfl⟩
  rcases List.mem_filter.1 hp with ⟨hsel, _⟩
  rcases List.mem_filterMap.1 hsel with ⟨q2, hq2, hoq⟩
  rcases Option.map_eq_some'.1 hoq with ⟨m, hget, hpm⟩
  subst hpm
  have := hn q2 hq2
  simpa [score_tailored] using this

theorem demo_run :
    recommend_movies_for_user "user_demo" demoUsers demoMovies 10 (1/2) 7 =
      Except.ok demoRows := by
  with_unfolding_all rfl

theorem df_head_subset (n : ℤ) (xs : List α) : df_head n xs ⊆ xs := by
  unfold df_head
  split <;> exact List.take_subset _ _

theorem df_head_zero (xs : List α) : df_head 0 xs = [] := by
  simp [df_head]

theorem tailored_pool_mem {movies : List Movie} {nbrs : List (ℕ × ℚ)}
    {favs : List String} {wt mr : ℚ} {r : ScoredRow}
    (h : r ∈ tailored_pool movies nbrs favs wt mr) :
    ∃ m s2, m ∈ movies ∧ r = score_tailored m s2 wt ∧
      m.tconst ∉ favs ∧ mr ≤ m.averageRating.getD 0 := by
  unfold tailored_pool at h
  rw [mem_sortBy] at h
  rcases List.mem_filter.1 h with ⟨hmem, hrat⟩
  rcases List.mem_map.1 hmem with ⟨p, hp, rfl⟩
  rcases List.mem_filter.1 hp with ⟨hsel, hfav⟩
  rcases List.mem_filterMap.1 hsel with ⟨q, hq, hoq⟩
  rcases Option.map_eq_some'.1 hoq with ⟨m, hget, hpm⟩
  subst hpm
  refine ⟨m, q.2, List.get?_mem hget, rfl, ?_, ?_⟩
  · exact of_decide_eq_true hfav
  · have := of_decide_eq_true hrat
    simpa [score_tailored] using this

theorem diverse_pool_mem {movies : List Movie} {preferred favs : List String}
    {wt mr : ℚ} {r : ScoredRow}
    (h : r ∈ diverse_pool movies preferred favs wt mr) :
    ∃ m, m ∈ movies ∧ r = score_diverse m wt ∧
      (∀ g ∈ m.genres_list, g ∉ preferred) ∧
      m.tconst ∉ favs ∧ mr ≤ m.averageRating.getD 0 := by
  unfold diverse_pool at h
  rw [mem_sortBy] at h
  rcases List.mem_filter.1 h with ⟨hmem, hrat⟩
  rcases List.mem_map.1 hmem with ⟨m, hm, rfl⟩
  rcases List.mem_filter.1 hm with ⟨hpref, hfav⟩
  rcases List.mem_filter.1 hpref with ⟨hmov, hgen⟩
  refine ⟨m, hmov, rfl, ?_, of_decide_eq_true hfav, ?_⟩
  · intro g hg
    exact of_decide_eq_true (List.all_eq_true.1 hgen g hg)
  · have := of_decide_eq_true hrat
    simpa [score_diverse] using this

theorem dedupByTconstGo_subset {seen : List String} {xs : List ScoredRow}
    {r : ScoredRow} (h : r ∈ dedupByTconstGo seen xs) : r ∈ xs := by
  induction xs generalizing seen with
  | nil => simp [dedupByTconstGo] at h
  | cons x rest ih =>
    simp only [dedupByTconstGo] at h
    split at h
    · exact List.mem_cons_of_mem x (ih h)
    · rcases List.mem_cons.1 h with rfl | h
      · exact List.mem_cons_self _ _
      · exact List.mem_cons_of_mem x (ih h)

theorem dedupByTconstGo_keys (seen : List String) (xs : List ScoredRow) :
    ((dedupByTconstGo seen xs).map (fun r => r.movie.tconst)).Nodup ∧
    ∀ r ∈ dedupByTconstGo seen xs, r.movie.tconst ∉ seen := by
  induction xs generalizing seen with
  | nil => simp [dedupByTconstGo]
  | cons x rest ih =>
    simp only [dedupByTconstGo]
    split
    · rename_i hx
      exact ih seen
    · rename_i hx
      rcases ih (x.movie.tconst :: seen) with ⟨hnodup, hseen⟩
      constructor
      · refine List.nodup_cons.2 ⟨?_, hnodup⟩
        intro hmem
        rcases List.mem_map.1 hmem with ⟨r, hr, hkey⟩
        exact (hseen r hr) (hkey ▸ List.mem_cons_self _ _)
      · intro r hr
        rcases List.mem_cons.1 hr with rfl | hr
        · exact hx
        · exact fun hc => (hseen r hr) (List.mem_cons_of_mem _ hc)

theorem dedupByTconstGo_keep_first {A B : List ScoredRow} {seen : List String}
    {r : ScoredRow} (h : r ∈ dedupByTconstGo seen (A ++ B))
    (hA : r.movie.tconst ∈ A.map (fun x => x.movie.tconst)) : r ∈ A := by
  induction A generalizing seen with
  | nil => simp at hA
  | cons a A ih =>
    simp only [List.cons_append, dedupByTconstGo] at h
    split at h
    · rename_i ha
      rcases List.mem_map.1 hA with ⟨x, hx, hkey⟩
      rcases List.mem_cons.1 hx with rfl | hx
      · exfalso
        have := (dedupByTconstGo_keys seen (A ++ B)).2 r h
        exact this (hkey ▸ ha)
      · exact List.mem_cons_of_mem a
          (ih h (List.mem_map.2 ⟨x, hx, hkey⟩))
    · rename_i ha
      rcases List.mem_cons.1 h with rfl | h
      · exact List.mem_cons_self _ _
      · rcases List.mem_map.1 hA with ⟨x, hx, hkey⟩
        rcases List.mem_cons.1 hx with rfl | hx
        · exfalso
          have := (dedupByTconstGo_keys (x.movie.tconst :: seen) (A ++ B)).2 r h
          exact this (hkey ▸ List.mem_cons_self _ _)
        · exact List.mem_cons_of_mem a
            (ih h (List.mem_map.2 ⟨x, hx, hkey⟩))

theorem merge_recs_subset {t d : List ScoredRow} {r : ScoredRow}
    (h : r ∈ merge_recs t d) : r ∈ t ++ d := by
  unfold merge_recs at h
  rw [mem_sortBy] at h
  exact dedupByTconstGo_subset h

theorem recommend_ok_inv {uid : String} {users : List UserRow} {movies : List Movie}
    {n : ℤ} {ratio mr : ℚ} {rows : List OutRow}
    (h : recommend_movies_for_user uid users movies n ratio mr = Except.ok rows) :
    ∃ u rest nbrs,
      users.filter (fun x => x.user_id == uid) = u :: rest ∧
      kneighbors (movies.map (fun m => mlb_transform (mlb_classes movies) m.genres_list))
        (mlb_transform (mlb_classes movies) u.preferred_genres) 200 = Except.ok nbrs ∧
      rows = (merge_recs
          (df_head (num_tailored n ratio)
            (tailored_pool movies nbrs u.favorite_movies u.average_watch_time mr))
          (df_head (num_diverse n ratio)
            (diverse_pool movies u.preferred_genres u.favorite_movies u.average_watch_time mr))).map
        toOutRow := by
  unfold recommend_movies_for_user at h
  cases hf : users.filter (fun x => x.user_id == uid) with
  | nil =>
    rw [hf] at h
    cases h
  | cons u rest =>
    rw [hf] at h
    simp only [] at h
    cases hk : kneighbors (movies.map fun m => mlb_transform (mlb_classes movies) m.genres_list)
        (mlb_transform (mlb_classes movies) u.preferred_genres) 200 with
    | error e =>
      rw [hk] at h
      cases h
    | ok nbrs =>
      rw [hk] at h
      refine ⟨u, rest, nbrs, rfl, hk, ?_⟩
      cases h
      rfl

theorem diverse_pool_rad_nonneg {movies : List Movie} {preferred favs : List String}
    {wt mr : ℚ} {r : ScoredRow} (hr : r ∈ diverse_pool movies preferred favs wt mr) :
    0 ≤ r.total_score.rad := by
  rcases diverse_pool_mem hr with ⟨m, _, rfl, _, _, _⟩
  simp [score_diverse]

theorem recommend_rows_rad_nonneg {uid : String} {users : List UserRow}
    {movies : List Movie} {n : ℤ} {ratio mr : ℚ} {rows : List OutRow}
    (h : recommend_movies_for_user uid users movies n ratio mr = Except.ok rows) :
    ∀ out ∈ rows, 0 ≤ out.total_score.rad := by
  rcases recommend_ok_inv h with ⟨u, rest, nbrs, hf, hk, hrows⟩
  subst hrows
  intro out hout
  rcases List.mem_map.1 hout with ⟨r, hr, rfl⟩
  rcases List.mem_append.1 (merge_recs_subset hr) with hr2 | hr2
  · have := tailored_pool_rad_nonneg (kneighbors_snd_nonneg hk) (df_head_subset _ _ hr2)
    simpa [toOutRow] using this
  · have := diverse_pool_rad_nonneg (df_head_subset _ _ hr2)
    simpa [toOutRow] using this

/-- C9: the runtime closeness score `1/(1 + |runtimeMinutes - watchTime|)`
always lies in (0,1], equals 1 exactly when the runtime equals the watch
time, and is (strictly) monotonically decreasing in the absolute runtime
difference; it is never zero and never undefined (its denominator is at
least 1, hence nonzero). -/
theorem claim_C9_runtime_score (rt wt rt1 rt2 : ℚ) :
    0 < runtime_score rt wt ∧
    runtime_score rt wt ≤ 1 ∧
    (runtime_score rt wt = 1 ↔ rt = wt) ∧
    (1 + |rt - wt| ≠ 0) ∧
    (|rt1 - wt| ≤ |rt2 - wt| → runtime_score rt2 wt ≤ runtime_score rt1 wt) ∧
    (|rt1 - wt| < |rt2 - wt| → runtime_score rt2 wt < runtime_score rt1 wt) := by
  have hpos : ∀ x : ℚ, (0:ℚ) < 1 + |x - wt| := by
    intro x
    have := abs_nonneg (x - wt)
    linarith
  unfold runtime_score
  refine ⟨?_, ?_, ?_, ?_, ?_, ?_⟩
  · exact div_pos one_pos (hpos rt)
  · rw [div_le_one (hpos rt)]
    have := abs_nonneg (rt - wt)
    linarith
  · rw [div_eq_one_iff_eq (ne_of_gt (hpos rt))]
    constructor
    · intro h1
      have habs : |rt - wt| = 0 := by linarith
      have := abs_eq_zero.1 habs
      linarith [sub_eq_zero.1 this]
    · intro h1
      subst h1
      simp
  · exact ne_of_gt (hpos rt)
  · intro hle
    exact one_div_le_one_div_of_le (hpos rt1) (by linarith)
  · intro hlt
    exact one_div_lt_one_div_of_lt (hpos rt1) (by linarith)

/-- Witness for C9: at runtime 100 and watch time 90 the score is positive,
and moving the runtime from 95 to 80 (absolute difference 5 to 10) strictly
decreases the score. -/
theorem claim_C9_runtime_score_witness :
    0 < runtime_score 100 90 ∧ runtime_score 80 90 < runtime_score 95 90 :=
  ⟨(claim_C9_runtime_score 100 90 95 80).1,
   (claim_C9_runtime_score 100 90 95 80).2.2.2.2.2 (by norm_num)⟩

/-- C7: with a positive requested count and a ratio in [0,1], the code's
`int(n_recommendations * diversified_ratio)` equals the floor, the tailored
count is the complement, and the boundary ratios 0 and 1 make the
diversified head resp. the tailored head empty regardless of pool size. -/
theorem claim_C7_split_counts (n : ℤ) (ratio : ℚ)
    (hn : 0 < n) (h0 : 0 ≤ ratio) (_h1 : ratio ≤ 1) :
    num_diverse n ratio = ⌊(n : ℚ) * ratio⌋ ∧
    num_tailored n ratio = n - ⌊(n : ℚ) * ratio⌋ ∧
    (∀ xs : List ScoredRow, df_head (num_diverse n 0) xs = []) ∧
    (∀ xs : List ScoredRow, df_head (num_tailored n 1) xs = []) := by
  have hge : (0:ℚ) ≤ (n:ℚ) * ratio := by
    have hn2 : (0:ℚ) ≤ (n:ℚ) := by exact_mod_cast hn.le
    exact mul_nonneg hn2 h0
  have hd : num_diverse n ratio = ⌊(n : ℚ) * ratio⌋ := by
    unfold num_diverse py_int
    rw [if_pos hge]
  refine ⟨hd, ?_, ?_, ?_⟩
  · unfold num_tailored
    rw [hd]
  · intro xs
    have hz : num_diverse n 0 = 0 := by
      unfold num_diverse py_int
      simp
    rw [hz, df_head_zero]
  · intro xs
    have hz : num_tailored n 1 = 0 := by
      unfold num_tailored num_diverse py_int
      have hn2 : (0:ℚ) ≤ (n:ℚ) * 1 := by
        have : (0:ℚ) ≤ (n:ℚ) := by exact_mod_cast hn.le
        simpa using this
      rw [if_pos hn2]
      simp
    rw [hz, df_head_zero]

/-- Witness for C7 at `n_recommendations = 10`, `diversified_ratio = 1/2`:
the split is 5 diversified plus 5 tailored, and the two boundary ratios
contribute nothing from the respective pool. -/
theorem claim_C7_split_counts_witness :
    num_diverse 10 (1/2) = 5 ∧ num_tailored 10 (1/2) = 5 ∧
    df_head (num_diverse 10 0) [score_diverse demoMovieA 100] = [] ∧
    df_head (num_tailored 10 1) [score_diverse demoMovieA 100] = [] := by
  obtain ⟨h1, h2, h3, h4⟩ :=
    claim_C7_split_counts 10 (1/2) (by norm_num) (by norm_num) (by norm_num)
  have hfl : ⌊((10:ℤ) : ℚ) * (1/2)⌋ = 5 := by
    rw [show ((10:ℤ) : ℚ) * (1/2) = ((5:ℤ) : ℚ) by norm_num, Int.floor_intCast]
  refine ⟨?_, ?_, h3 _, h4 _⟩
  · rw [h1, hfl]
  · rw [h2, hfl]
    norm_num

/-- C5: every row of the diversified pool belongs to a movie whose genre
list has empty intersection with the user's preferred genres. -/
theorem claim_C5_diverse_genres_disjoint (movies : List Movie)
    (preferred favs : List String) (wt mr : ℚ) (r : ScoredRow)
    (hr : r ∈ diverse_pool movies preferred favs wt mr) :
    ∀ g ∈ r.movie.genres_list, g ∉ preferred := by
  rcases diverse_pool_mem hr with ⟨m, _, rfl, hgen, _, _⟩
  simpa [score_diverse] using hgen

/-- Witness for C5 on a one-movie catalog: the pool row for the genre-`B`
movie of a user preferring `A` indeed has no genre among the preferences. -/
theorem claim_C5_diverse_genres_disjoint_witness : "B" ∉ ["A"] := by
  have hpool : diverse_pool [demoMovieB 0] ["A"] [] 100 7 =
      [score_diverse (demoMovieB 0) 100] := by
    with_unfolding_all rfl
  refine claim_C5_diverse_genres_disjoint [demoMovieB 0] ["A"] [] 100 7
    (score_diverse (demoMovieB 0) 100) ?_ "B" ?_
  · rw [hpool]
    exact List.mem_singleton.2 rfl
  · simp [score_diverse, demoMovieB]

/-- C6: no movie whose id is among the user's favorites ever appears in the
tailored pool or in the diversified pool; consequently (third conjunct) no
returned row of a successful request carries a favorite id of the request's
user. -/
theorem claim_C6_favorites_excluded (movies : List Movie) (nbrs : List (ℕ × ℚ))
    (preferred favs : List String) (wt mr : ℚ) (r : ScoredRow) :
    (r ∈ tailored_pool movies nbrs favs wt mr → r.movie.tconst ∉ favs) ∧
    (r ∈ diverse_pool movies preferred favs wt mr → r.movie.tconst ∉ favs) ∧
    (∀ uid users n ratio mr2 rows u rest,
      recommend_movies_for_user uid users movies n ratio mr2 = Except.ok rows →
      users.filter (fun x => x.user_id == uid) = u :: rest →
      ∀ out ∈ rows, out.tconst ∉ u.favorite_movies) := by
  refine ⟨?_, ?_, ?_⟩
  · intro hr
    rcases tailored_pool_mem hr with ⟨m, s2, _, rfl, hfav, _⟩
    simpa [score_tailored] using hfav
  · intro hr
    rcases diverse_pool_mem hr with ⟨m, _, rfl, _, hfav, _⟩
    simpa [score_diverse] using hfav
  · intro uid users n ratio mr2 rows u rest h hfilter out hout
    rcases recommend_ok_inv h with ⟨u2, rest2, nbrs2, hf2, hk2, hrows⟩
    rw [hfilter] at hf2
    injection hf2 with hu hrest
    subst hu
    subst hrows
    rcases List.mem_map.1 hout with ⟨x, hx, rfl⟩
    rcases List.mem_append.1 (merge_recs_subset hx) with hx2 | hx2
    · rcases tailored_pool_mem (df_head_subset _ _ hx2) with ⟨m, s2, _, rfl, hfav, _⟩
      simpa [toOutRow, score_tailored] using hfav
    · rcases diverse_pool_mem (df_head_subset _ _ hx2) with ⟨m, _, rfl, _, hfav, _⟩
      simpa [toOutRow, score_diverse] using hfav

/-- Witness for C6 on a one-movie catalog and the favorites list `[tZ]`:
the movie `t0` is in the tailored pool (it is not a favorite), and the
theorem yields that its id is not among the favorites. -/
theorem claim_C6_favorites_excluded_witness :
    (score_tailored (demoMovieB 0) 1 100).movie.tconst ∉ ["tZ"] := by
  have hpool : tailored_pool [demoMovieB 0] [(0, 1)] ["tZ"] 100 7 =
      [score_tailored (demoMovieB 0) 1 100] := by
    with_unfolding_all rfl
  refine (claim_C6_favorites_excluded [demoMovieB 0] [(0, 1)] ["A"] ["tZ"] 100 7
    (score_tailored (demoMovieB 0) 1 100)).1 ?_
  rw [hpool]
  exact List.mem_singleton.2 rfl

/-- C8: the output of every successful request has pairwise distinct item
ids; moreover (second conjunct) the merged list is exactly made of rows of
the two truncated pools (no backfilling: nothing outside the two heads can
appear), and an id present in the tailored head survives deduplication
through its tailored occurrence. -/
theorem claim_C8_no_duplicate_ids (uid : String) (users : List UserRow)
    (movies : List Movie) (n : ℤ) (ratio mr : ℚ) (rows : List OutRow)
    (h : recommend_movies_for_user uid users movies n ratio mr = Except.ok rows) :
    (rows.map OutRow.tconst).Nodup ∧
    (∀ t d : List ScoredRow, ∀ r ∈ merge_recs t d,
      r ∈ t ++ d ∧ (r.movie.tconst ∈ t.map (fun x => x.movie.tconst) → r ∈ t)) := by
  constructor
  · rcases recommend_ok_inv h with ⟨u, rest, nbrs, hf, hk, hrows⟩
    subst hrows
    have hkeys :
        ((drop_duplicates_tconst
            (df_head (num_tailored n ratio)
              (tailored_pool movies nbrs u.favorite_movies u.average_watch_time mr) ++
             df_head (num_diverse n ratio)
              (diverse_pool movies u.preferred_genres u.favorite_movies u.average_watch_time
                mr))).map (fun r => r.movie.tconst)).Nodup :=
      (dedupByTconstGo_keys [] _).1
    have hperm :=
      ((sortBy_perm byTotalScoreDesc
          (drop_duplicates_tconst
            (df_head (num_tailored n ratio)
              (tailored_pool movies nbrs u.favorite_movies u.average_watch_time mr) ++
             df_head (num_diverse n ratio)
              (diverse_pool movies u.preferred_genres u.favorite_movies u.average_watch_time
                mr)))).map (fun r => r.movie.tconst)).symm
    have hnodup := hperm.nodup hkeys
    simpa [merge_recs, List.map_map, Function.comp, toOutRow] using hnodup
  · intro t d r hr
    refine ⟨merge_recs_subset hr, fun hkey => ?_⟩
    unfold merge_recs at hr
    rw [mem_sortBy] at hr
    exact dedupByTconstGo_keep_first hr hkey

/-- Witness for C8 on the concrete demo run: the six returned ids are
pairwise distinct, and in a concrete two-row merge where the same id occurs
in both pools, the surviving row is the tailored one. -/
theorem claim_C8_no_duplicate_ids_witness :
    (demoRows.map OutRow.tconst).Nodup ∧
    (score_tailored (demoMovieB 0) 1 100 ∈ [score_tailored (demoMovieB 0) 1 100]) := by
  have hmain := claim_C8_no_duplicate_ids "user_demo" demoUsers demoMovies 10 (1/2) 7
    demoRows demo_run
  refine ⟨hmain.1, ?_⟩
  have hmerge : score_tailored (demoMovieB 0) 1 100 ∈
      merge_recs [score_tailored (demoMovieB 0) 1 100] [score_diverse (demoMovieB 0) 100] := by
    with_unfolding_all decide
  exact (hmain.2 [score_tailored (demoMovieB 0) 1 100] [score_diverse (demoMovieB 0) 100]
      (score_tailored (demoMovieB 0) 1 100) hmerge).2
    (by with_unfolding_all decide)

/-- C10: the rows of every successful request are sorted by descending
`total_score` (the code re-sorts the merged, deduplicated pools at line 166
of `src/app.py`), resolving the spec's open ordering choice in favor of
score order.  Stated both for the executable comparator `RadQ.le` and for
the denoted real score values `RadQ.val`. -/
theorem claim_C10_sorted_by_score (uid : String) (users : List UserRow)
    (movies : List Movie) (n : ℤ) (ratio mr : ℚ) (rows : List OutRow)
    (h : recommend_movies_for_user uid users movies n ratio mr = Except.ok rows) :
    rows.Pairwise (fun a b => RadQ.le b.total_score a.total_score = true) ∧
    rows.Pairwise (fun a b => RadQ.val b.total_score ≤ RadQ.val a.total_score) := by
  have hrad := recommend_rows_rad_nonneg h
  rcases recommend_ok_inv h with ⟨u, rest, nbrs, hf, hk, hrows⟩
  subst hrows
  have hsorted := @pairwise_sortBy ScoredRow byTotalScoreDesc
    (fun a b => RadQ.le_total_bool b.total_score a.total_score)
    (fun a b c h1 h2 => RadQ.le_trans_bool c.total_score b.total_score a.total_score h2 h1)
    (drop_duplicates_tconst
      (df_head (num_tailored n ratio)
        (tailored_pool movies nbrs u.favorite_movies u.average_watch_time mr) ++
       df_head (num_diverse n ratio)
        (diverse_pool movies u.preferred_genres u.favorite_movies u.average_watch_time mr)))
  have hle : List.Pairwise
      (fun a b : OutRow => RadQ.le b.total_score a.total_score = true)
      ((merge_recs
        (df_head (num_tailored n ratio)
          (tailored_pool movies nbrs u.favorite_movies u.average_watch_time mr))
        (df_head (num_diverse n ratio)
          (diverse_pool movies u.preferred_genres u.favorite_movies u.average_watch_time
            mr))).map toOutRow) := by
    refine List.Pairwise.map toOutRow ?_ hsorted
    intro a b hab
    simpa [toOutRow, byTotalScoreDesc] using hab
  refine ⟨hle, ?_⟩
  exact hle.imp_of_mem (fun ha hb hab =>
    (RadQ.le_iff_val (hrad _ hb) (hrad _ ha)).1 hab)

/-- Witness for C10: the six rows of the concrete demo run are pairwise in
descending `total_score` order, both under the executable comparator and in
denoted real value. -/
theorem claim_C10_sorted_by_score_witness :
    demoRows.Pairwise (fun a b => RadQ.le b.total_score a.total_score = true) ∧
    demoRows.Pairwise (fun a b => RadQ.val b.total_score ≤ RadQ.val a.total_score) :=
  claim_C10_sorted_by_score "user_demo" demoUsers demoMovies 10 (1/2) 7 demoRows demo_run

/-- Counterexample to C4: the column list projected at line 168 of
`src/app.py` does not contain `user_id` — result rows do not carry the
requesting user's id, contradicting the claimed output shape. -/
theorem claim_C4_counterexample : "user_id" ∉ output_columns := by decide

/-- C4 as amended: result rows have the shape `{tconst (item id), title,
genres, runtimeMinutes, averageRating, total_score}` without any `user_id`
field, and every returned row carries the data of some catalog movie
(`averageRating` being the fillna(0) value of the movie's rating). -/
theorem claim_C4_output_shape (uid : String) (users : List UserRow)
    (movies : List Movie) (n : ℤ) (ratio mr : ℚ) (rows : List OutRow)
    (h : recommend_movies_for_user uid users movies n ratio mr = Except.ok rows) :
    "user_id" ∉ output_columns ∧
    output_columns.length = 6 ∧
    ∀ out ∈ rows, ∃ m, m ∈ movies ∧
      out.tconst = m.tconst ∧ out.primaryTitle = m.primaryTitle ∧
      out.genres = m.genres ∧ out.runtimeMinutes = m.runtimeMinutes ∧
      out.averageRating = m.averageRating.getD 0 := by
  refine ⟨by decide, by decide, ?_⟩
  rcases recommend_ok_inv h with ⟨u, rest, nbrs, hf, hk, hrows⟩
  subst hrows
  intro out hout
  rcases List.mem_map.1 hout with ⟨r, hr, rfl⟩
  rcases List.mem_append.1 (merge_recs_subset hr) with hr2 | hr2
  · rcases tailored_pool_mem (df_head_subset _ _ hr2) with ⟨m, s2, hm, rfl, _, _⟩
    exact ⟨m, hm, by simp [toOutRow, score_tailored]⟩
  · rcases diverse_pool_mem (df_head_subset _ _ hr2) with ⟨m, hm, rfl, _, _⟩
    exact ⟨m, hm, by simp [toOutRow, score_diverse]⟩

/-- Witness for C4 (amended) on the concrete demo run: the first returned
row is the catalog movie `tA` with its title, genres, runtime and rating. -/
theorem claim_C4_output_shape_witness :
    ∃ m, m ∈ demoMovies ∧
      (demoRows.get ⟨0, by decide⟩).tconst = m.tconst ∧
      (demoRows.get ⟨0, by decide⟩).primaryTitle = m.primaryTitle ∧
      (demoRows.get ⟨0, by decide⟩).genres = m.genres ∧
      (demoRows.get ⟨0, by decide⟩).runtimeMinutes = m.runtimeMinutes ∧
      (demoRows.get ⟨0, by decide⟩).averageRating = m.averageRating.getD 0 :=
  (claim_C4_output_shape "user_demo" demoUsers demoMovies 10 (1/2) 7 demoRows
      demo_run).2.2
    (demoRows.get ⟨0, by decide⟩) (demoRows.get_mem _ _)

/-- Counterexample to C3: on a store not containing the requested user the
pipeline fails with the unclassified pandas `IndexError` from `.iloc[0]`
(there is no `UserNotFound` classification anywhere in the code), and with
`n_recommendations = 0` (which the claim says must fail with
`InvalidParameters`) the pipeline instead returns a normal empty result. -/
theorem claim_C3_counterexample :
    recommend_movies_for_user "user_ghost" demoUsers demoMovies 10 (1/2) 7 =
        Except.error PyErr.indexError ∧
    recommend_movies_for_user "user_demo" demoUsers demoMovies 0 (1/2) 7 =
        Except.ok [] := by
  constructor
  · with_unfolding_all rfl
  · with_unfolding_all rfl

/-- C3 as amended: a request for a user id absent from the store fails with
the unclassified pandas `IndexError` raised by `.iloc[0]` on the empty
selection; the code performs no parameter validation, so no
`InvalidParameters` (or `UserNotFound`) classification exists. -/
theorem claim_C3_unknown_user_error (uid : String) (users : List UserRow)
    (movies : List Movie) (n : ℤ) (ratio mr : ℚ)
    (h : ∀ u ∈ users, u.user_id ≠ uid) :
    recommend_movies_for_user uid users movies n ratio mr =
      Except.error PyErr.indexError := by
  unfold recommend_movies_for_user
  have hnil : users.filter (fun x => x.user_id == uid) = [] := by
    rw [List.filter_eq_nil_iff]
    intro a ha
    simpa using h a ha
  rw [hnil]

/-- Witness for C3 (amended): the empty user store with any catalog yields
the `IndexError`. -/
theorem claim_C3_unknown_user_error_witness :
    recommend_movies_for_user "user_ghost" [] [demoMovieA] 10 (1/2) 7 =
      Except.error PyErr.indexError :=
  claim_C3_unknown_user_error "user_ghost" [] [demoMovieA] 10 (1/2) 7 (by simp)

/-- Counterexample to C2: on a one-item catalog the fixed over-fetch of 200
does not succeed by using all items — `kneighbors` raises `ValueError`
because `n_neighbors` exceeds the number of fitted samples. -/
theorem claim_C2_counterexample :
    kneighbors [[1]] [1] 200 = Except.error PyErr.valueError := by
  with_unfolding_all rfl

/-- C2 as amended: the k-nearest query returns exactly `k` results whenever
`k` is at most the catalog size, and fails with `ValueError` whenever `k`
exceeds the catalog size; hence the engine's fixed over-fetch of 200 only
succeeds on catalogs with at least 200 items. -/
theorem claim_C2_kneighbors_count (X : List (List ℚ)) (q : List ℚ) (k : ℕ) :
    (k ≤ X.length → ∃ rs, kneighbors X q k = Except.ok rs ∧ rs.length = k) ∧
    (X.length < k → kneighbors X q k = Except.error PyErr.valueError) := by
  constructor
  · intro hk
    refine ⟨(sortBy (fun a b => decide (b.2 ≤ a.2)) (X.map (cosSimSq q)).enum).take k, ?_, ?_⟩
    · unfold kneighbors
      rw [if_neg (not_lt.2 hk)]
    · rw [List.length_take, length_sortBy, List.enum_length, List.length_map]
      exact min_eq_left hk
  · intro hk
    unfold kneighbors
    rw [if_pos hk]

/-- Witness for C2 (amended): on a two-item catalog, `k = 2` succeeds with
exactly two results. -/
theorem claim_C2_kneighbors_count_witness :
    ∃ rs, kneighbors [[1], [0]] [1] 2 = Except.ok rs ∧ rs.length = 2 :=
  (claim_C2_kneighbors_count [[1], [0]] [1] 2).1 (by norm_num)

/-- Counterexample to C1: the code's total score is multiplicative with no
rounding, not the spec's rounded additive formula.  For the genre-`A` demo
movie with similarity 1 (`rad = 1`, so the score value is the `num` field):
the code computes `1 * (8/10) * 1 = 4/5`, while the spec formula gives
`round2(0.7 * 1 + 0.3 * ((0.8 + 1)/2)) = 0.97`. -/
theorem claim_C1_counterexample :
    (score_tailored demoMovieA 1 100).total_score.rad = 1 ∧
    (score_tailored demoMovieA 1 100).total_score.num ≠
      spec_total_score 1 (score_tailored demoMovieA 1 100).rating_score
        (score_tailored demoMovieA 1 100).runtime_score := by
  constructor
  · with_unfolding_all rfl
  · have h1 : (score_tailored demoMovieA 1 100).total_score.num = 4/5 := by
      with_unfolding_all rfl
    have h2 : (score_tailored demoMovieA 1 100).rating_score = 4/5 := by
      with_unfolding_all rfl
    have h3 : (score_tailored demoMovieA 1 100).runtime_score = 1 := by
      with_unfolding_all rfl
    rw [h1, h2, h3]
    unfold spec_total_score round2
    intro hcontra
    rw [show (7:ℚ)/10 * 1 + 3/10 * ((4/5 + 1) / 2) = 97/100 by norm_num] at hcontra
    rw [show ((97:ℚ)/100) * 100 = ((97:ℤ) : ℚ) by norm_num] at hcontra
    rw [round_intCast] at hcontra
    norm_num at hcontra

/-- C1 as amended: for every row of the tailored pool the code computes
`total_score = similarity * rating_score * runtime_score` (represented as
`(rating_score * runtime_score) * √simSq` since `similarity = √simSq`), and
for every row of the diversified pool `total_score = rating_score *
runtime_score` (no similarity factor at all rather than a forced 0 — under
the multiplicative formula a forced 0 would zero every diversified score);
`rating_score = averageRating/10` on the fillna(0) rating, and no rounding
is applied anywhere. -/
theorem claim_C1_total_score_formula (movies : List Movie) (nbrs : List (ℕ × ℚ))
    (preferred favs : List String) (wt mr : ℚ) (r : ScoredRow) :
    (r ∈ tailored_pool movies nbrs favs wt mr →
      ∃ s2, r.simSq = some s2 ∧
        r.rating_score = r.averageRating / 10 ∧
        r.runtime_score = runtime_score r.movie.runtimeMinutes wt ∧
        r.total_score = { num := r.rating_score * r.runtime_score, rad := s2 }) ∧
    (r ∈ diverse_pool movies preferred favs wt mr →
      r.simSq = none ∧
      r.rating_score = r.averageRating / 10 ∧
      r.runtime_score = runtime_score r.movie.runtimeMinutes wt ∧
      r.total_score = { num := r.rating_score * r.runtime_score, rad := 1 }) := by
  constructor
  · intro hr
    rcases tailored_pool_mem hr with ⟨m, s2, _, rfl, _, _⟩
    exact ⟨s2, rfl, rfl, rfl, rfl⟩
  · intro hr
    rcases diverse_pool_mem hr with ⟨m, _, rfl, _, _⟩
    exact ⟨rfl, rfl, rfl, rfl⟩

/-- Witness for C1 (amended) on a one-movie tailored pool with similarity
1: the row's score fields satisfy the multiplicative formula. -/
theorem claim_C1_total_score_formula_witness :
    ∃ s2, (score_tailored demoMovieA 1 100).simSq = some s2 ∧
      (score_tailored demoMovieA 1 100).rating_score =
        (score_tailored demoMovieA 1 100).averageRating / 10 ∧
      (score_tailored demoMovieA 1 100).runtime_score =
        runtime_score (score_tailored demoMovieA 1 100).movie.runtimeMinutes 100 ∧
      (score_tailored demoMovieA 1 100).total_score =
        { num := (score_tailored demoMovieA 1 100).rating_score *
            (score_tailored demoMovieA 1 100).runtime_score,
          rad := s2 } := by
  have hpool : tailored_pool [demoMovieA] [(0, 1)] [] 100 7 =
      [score_tailored demoMovieA 1 100] := by
    with_unfolding_all rfl
  refine (claim_C1_total_score_formula [demoMovieA] [(0, 1)] ["A"] [] 100 7
    (score_tailored demoMovieA 1 100)).1 ?_
  rw [hpool]
  exact List.mem_singleton.2 rfl
